import Mathlib

/-!
Shallow embedding of the reactive core of `pwm`, a minimal tiling window
manager (`src/main.c`), together with theorems checking its natural-language
specification.

Conventions of the embedding:
* `xcb_window_t` window ids are modelled as `Nat`; the C code uses the id `0`
  to encode the absence of a main window (`workspace.main_window.window == 0`).
* The dynamically sized `side_windows` array is modelled as a `List Nat` in
  array order; `append_sidewindow` is `· ++ [w]` and `remove_sidewindow i` is
  `List.eraseIdx · i`.
* Calls into the display server (`xcb_configure_window`,
  `xcb_change_window_attributes`, `xcb_flush`, ...) are reified as a list of
  `Cmd` values emitted by each handler, in call order.
* The relevant XCB / XKB constants are copied verbatim from the headers.
-/

namespace Pwm

/-- Window id (`xcb_window_t`, an unsigned 32-bit handle; 0 means "none"). -/
abbrev Window := Nat

/-- The workspace of `main.c`: `{ window_t main_window; window_t *side_windows;
uint32_t num_side_windows; }`, with the side array as a list. -/
structure Workspace where
  main_window : Window
  side_windows : List Window
deriving DecidableEq, Repr

/-- XCB constant `XCB_CW_BORDER_PIXEL` (value 8). -/
def XCB_CW_BORDER_PIXEL : Nat := 8

/-- XCB constant `XCB_CW_EVENT_MASK` (value 2048). -/
def XCB_CW_EVENT_MASK : Nat := 2048

/-- XCB constant `XCB_CONFIG_WINDOW_X` (value 1). -/
def XCB_CONFIG_WINDOW_X : Nat := 1

/-- XCB constant `XCB_CONFIG_WINDOW_Y` (value 2). -/
def XCB_CONFIG_WINDOW_Y : Nat := 2

/-- XCB constant `XCB_CONFIG_WINDOW_WIDTH` (value 4). -/
def XCB_CONFIG_WINDOW_WIDTH : Nat := 4

/-- XCB constant `XCB_CONFIG_WINDOW_HEIGHT` (value 8). -/
def XCB_CONFIG_WINDOW_HEIGHT : Nat := 8

/-- XCB constant `XCB_CONFIG_WINDOW_BORDER_WIDTH` (value 16). -/
def XCB_CONFIG_WINDOW_BORDER_WIDTH : Nat := 16

/-- XCB constant `XCB_CONFIG_WINDOW_SIBLING` (value 32). -/
def XCB_CONFIG_WINDOW_SIBLING : Nat := 32

/-- XCB constant `XCB_CONFIG_WINDOW_STACK_MODE` (value 64). -/
def XCB_CONFIG_WINDOW_STACK_MODE : Nat := 64

/-- Constant `BORDER_WIDTH` from `main.c` (value 5). -/
def BORDER_WIDTH : Nat := 5

/-- XCB constant `XCB_MOD_MASK_SHIFT` (value 1). -/
def XCB_MOD_MASK_SHIFT : Nat := 1

/-- XCB constant `XCB_MOD_MASK_1` (value 8). -/
def XCB_MOD_MASK_1 : Nat := 8

/-- XKB keysym `XKB_KEY_c` (value 0x63). -/
def XKB_KEY_c : Nat := 0x63

/-- XKB keysym `XKB_KEY_Return` (value 0xff0d). -/
def XKB_KEY_Return : Nat := 0xff0d

/-- Protocol requests issued to the display server, in call order.
`changeWindowRect w x y width height` reifies `change_window_rect`
(an `xcb_configure_window` with the X/Y/WIDTH/HEIGHT mask);
`changeWindowAttributes w attrMask value` reifies
`xcb_change_window_attributes`; `configureWindow w valueMask values` reifies a
raw `xcb_configure_window`; `flush` reifies `xcb_flush`. -/
inductive Cmd where
  | changeWindowRect (window x y width height : Nat)
  | changeWindowAttributes (window attrMask value : Nat)
  | configureWindow (window valueMask : Nat) (values : List Nat)
  | mapWindow (window : Nat)
  | flush
deriving DecidableEq, Repr

/-- Embedding of `reconfigure` (main.c lines 398-424): when a main window is
present, emit its rectangle (full screen when `side_windows` is empty, the
left half otherwise followed by one rectangle per side window, the side loop
running over indices in ascending order), then `xcb_flush` unconditionally. -/
def reconfigure (W H : Nat) (ws : Workspace) : List Cmd :=
  (if ws.main_window ≠ 0 then
    if ws.side_windows.length = 0 then
      [Cmd.changeWindowRect ws.main_window 0 0 W H]
    else
      Cmd.changeWindowRect ws.main_window 0 0 (W / 2) H ::
        ws.side_windows.enum.map (fun p =>
          Cmd.changeWindowRect p.2 (W / 2)
            (p.1 * (H / ws.side_windows.length)) (W / 2)
            (H / ws.side_windows.length))
  else []) ++ [Cmd.flush]

/-- Embedding of the insertion performed by `handle_create_notify`
(main.c lines 480-482): a window becomes main when `main_window` is 0,
otherwise `append_sidewindow` appends it at the end of the side array. -/
def insertWindow (ws : Workspace) (w : Window) : Workspace :=
  if ws.main_window = 0 then { ws with main_window := w }
  else { ws with side_windows := ws.side_windows ++ [w] }

/-- Embedding of the side-window search loop of `handle_destroy_notify`
(main.c lines 495-502): the C loop visits every index without breaking and
overwrites `index` on each match, so the last matching index wins. This
recursion computes that same last index (a match in the tail takes precedence
over a match at the head). -/
def findLastIdx : List Window → Window → Option Nat
  | [], _ => none
  | x :: rest, w =>
      match findLastIdx rest w with
      | some i => some (i + 1)
      | none => if x = w then some 0 else none

/-- Embedding of the state change of `handle_destroy_notify`
(main.c lines 488-504): when the destroyed window is main, main is cleared and
the first side window (if any) is promoted via `remove_sidewindow(0)`;
otherwise the side array is scanned and, when found, the matching entry is
removed via `remove_sidewindow(index)` (where `index` is the last match). -/
def removeWindow (ws : Workspace) (w : Window) : Workspace :=
  if ws.main_window = w then
    match ws.side_windows with
    | [] => { ws with main_window := 0 }
    | s0 :: rest => { main_window := s0, side_windows := rest }
  else
    match findLastIdx ws.side_windows w with
    | some i => { ws with side_windows := ws.side_windows.eraseIdx i }
    | none => ws

/-- Embedding of `set_border_colour` (main.c lines 448-475): it issues an
`xcb_change_window_attributes` whose attribute mask is `XCB_CW_EVENT_MASK`
(sic — not `XCB_CW_BORDER_PIXEL`) carrying the colour, then an
`xcb_configure_window` setting the border width to `BORDER_WIDTH`. -/
def set_border_colour (w colour : Nat) : List Cmd :=
  [Cmd.changeWindowAttributes w XCB_CW_EVENT_MASK colour,
   Cmd.configureWindow w XCB_CONFIG_WINDOW_BORDER_WIDTH [BORDER_WIDTH]]

/-- Embedding of `handle_create_notify` (main.c lines 478-485): insert the
window, relayout, then `set_border_colour(window, 0xffffff)`. -/
def handle_create_notify (W H : Nat) (ws : Workspace) (w : Window) :
    Workspace × List Cmd :=
  let wsNew := insertWindow ws w
  (wsNew, reconfigure W H wsNew ++ set_border_colour w 0xffffff)

/-- Embedding of `handle_destroy_notify` (main.c lines 486-506): update the
workspace, then call `reconfigure` unconditionally. -/
def handle_destroy_notify (W H : Nat) (ws : Workspace) (w : Window) :
    Workspace × List Cmd :=
  let wsNew := removeWindow ws w
  (wsNew, reconfigure W H wsNew)

/-- Action kinds of the key table: `handle_keymap_quit` and
`handle_keymap_spawnprocess` (main.c lines 191-212). -/
inductive Action where
  | quit
  | spawnprocess
deriving DecidableEq, Repr

/-- Embedding of `keymap_t` (main.c lines 35-40): a modifier mask, a keysym
and the bound handler (the opaque payload is fused into the action tag). -/
structure KeymapEntry where
  modifiers : Nat
  keysym : Nat
  action : Action
deriving DecidableEq, Repr

/-- The static key table `KEYMAPS` of main.c (lines 138-141):
`MOD1|SHIFT + c` quits, `MOD1 + Return` spawns the terminal command. -/
def KEYMAPS : List KeymapEntry :=
  [{ modifiers := XCB_MOD_MASK_1 ||| XCB_MOD_MASK_SHIFT, keysym := XKB_KEY_c,
     action := Action.quit },
   { modifiers := XCB_MOD_MASK_1, keysym := XKB_KEY_Return,
     action := Action.spawnprocess }]

/-- Embedding of the dispatch loop of `handle_key_press`
(main.c lines 558-563): the loop visits every entry and, with no break,
invokes the handler of every entry whose modifier mask equals `event->state`
exactly and whose keysym equals the observed keysym.  The result is the list
of triggered entries in registration order. -/
def handle_key_press (registry : List KeymapEntry) (state keysym : Nat) :
    List KeymapEntry :=
  registry.filter (fun e => e.modifiers == state && e.keysym == keysym)

/-- Engine state owned by the dispatch loop: the `running` flag and the
workspace (main.c lines 146-147).  `running = false` after startup is the
ShuttingDown state of the spec. -/
structure Engine where
  running : Bool
  workspace : Workspace
deriving DecidableEq, Repr

/-- Effect of one keymap handler on the engine state: `handle_keymap_quit`
clears `running`; `handle_keymap_spawnprocess` forks an external process and
leaves the engine state untouched. -/
def applyAction (e : Engine) : Action → Engine
  | Action.quit => { e with running := false }
  | Action.spawnprocess => e

/-- Notifications consumed by the event loop; `inert` stands for every tag
whose handler body is empty (map/unmap/reparent/configure/gravity notify,
circulate request, key release, focus in/out). -/
inductive XEvent where
  | createNotify (w : Window)
  | destroyNotify (w : Window)
  | keyPress (state keysym : Nat)
  | inert
deriving DecidableEq, Repr

/-- Dispatch of a single notification (the body of the event loop,
main.c lines 176-183, routed through `EVENT_HANDLERS`): returns the engine
state after the handler runs and the commands it issued. -/
def dispatchEvent (W H : Nat) (e : Engine) : XEvent → Engine × List Cmd
  | XEvent.createNotify w =>
      let r := handle_create_notify W H e.workspace w
      ({ e with workspace := r.1 }, r.2)
  | XEvent.destroyNotify w =>
      let r := handle_destroy_notify W H e.workspace w
      ({ e with workspace := r.1 }, r.2)
  | XEvent.keyPress st ks =>
      ((handle_key_press KEYMAPS st ks).foldl
        (fun acc ent => applyAction acc ent.action) e, [])
  | XEvent.inert => (e, [])

/-- Small-step relation of the event loop (main.c lines 176-183): one step
dequeues the next pending notification and dispatches it, and is enabled only
while `running` is still true at the loop head. -/
inductive EngineStep (W H : Nat) :
    Engine × List XEvent → Engine × List XEvent → Prop where
  | dispatch (e : Engine) (ev : XEvent) (q : List XEvent)
      (hrun : e.running = true) :
      EngineStep W H (e, ev :: q) ((dispatchEvent W H e ev).1, q)

/-- Embedding of `xcb_configure_request_event_t` as consumed by
`handle_configure_request`: the target window, the requested value mask and
the requested field values. -/
structure ConfigureRequestEvent where
  window : Nat
  value_mask : Nat
  x : Nat
  y : Nat
  width : Nat
  height : Nat
  border_width : Nat
  sibling : Nat
  stack_mode : Nat
deriving DecidableEq, Repr

/-- The seven configure bits in the protocol's ascending order. -/
def configBits : List Nat :=
  [XCB_CONFIG_WINDOW_X, XCB_CONFIG_WINDOW_Y, XCB_CONFIG_WINDOW_WIDTH,
   XCB_CONFIG_WINDOW_HEIGHT, XCB_CONFIG_WINDOW_BORDER_WIDTH,
   XCB_CONFIG_WINDOW_SIBLING, XCB_CONFIG_WINDOW_STACK_MODE]

/-- Embedding of the `value_list` packing of `handle_configure_request`
(main.c lines 525-540): one sequential append per mask bit tested, in the
order X, Y, WIDTH, HEIGHT, BORDER_WIDTH, SIBLING, STACK_MODE. -/
def configure_value_list (ev : ConfigureRequestEvent) : List Nat :=
  (if ev.value_mask &&& XCB_CONFIG_WINDOW_X ≠ 0 then [ev.x] else [])
  ++ (if ev.value_mask &&& XCB_CONFIG_WINDOW_Y ≠ 0 then [ev.y] else [])
  ++ (if ev.value_mask &&& XCB_CONFIG_WINDOW_WIDTH ≠ 0 then [ev.width] else [])
  ++ (if ev.value_mask &&& XCB_CONFIG_WINDOW_HEIGHT ≠ 0 then [ev.height]
      else [])
  ++ (if ev.value_mask &&& XCB_CONFIG_WINDOW_BORDER_WIDTH ≠ 0 then
        [ev.border_width] else [])
  ++ (if ev.value_mask &&& XCB_CONFIG_WINDOW_SIBLING ≠ 0 then [ev.sibling]
      else [])
  ++ (if ev.value_mask &&& XCB_CONFIG_WINDOW_STACK_MODE ≠ 0 then
        [ev.stack_mode] else [])

/-- Embedding of `handle_configure_request` (main.c lines 522-556): one
`xcb_configure_window` with the client's mask verbatim and the packed value
list, then `xcb_flush`. -/
def handle_configure_request (ev : ConfigureRequestEvent) : List Cmd :=
  [Cmd.configureWindow ev.window ev.value_mask (configure_value_list ev),
   Cmd.flush]

/-- Protocol meaning of a `(valueMask, values)` pair in a ConfigureWindow
request: the value list is consumed left to right, one value per set mask
bit, in the protocol's ascending bit order; the result is the list of
`(bit, value)` assignments the request carries. -/
def decodeConfigValues : List Nat → Nat → List Nat → List (Nat × Nat)
  | [], _, _ => []
  | b :: bs, mask, values =>
      if mask &&& b ≠ 0 then
        match values with
        | [] => []
        | v :: vs => (b, v) :: decodeConfigValues bs mask vs
      else decodeConfigValues bs mask values

/-- The value the client requested for each configure bit. -/
def requestedValue (ev : ConfigureRequestEvent) : Nat → Nat
  | 1 => ev.x
  | 2 => ev.y
  | 4 => ev.width
  | 8 => ev.height
  | 16 => ev.border_width
  | 32 => ev.sibling
  | 64 => ev.stack_mode
  | _ => 0

/-- The field set the client asked to change, as stated by the spec: every
set bit of the request's mask paired with the value the client requested for
that field, in ascending bit order. -/
def requestedFields (ev : ConfigureRequestEvent) : List (Nat × Nat) :=
  configBits.filterMap (fun b =>
    if ev.value_mask &&& b ≠ 0 then some (b, requestedValue ev b) else none)

/-- Projection extracting the raw ConfigureWindow requests from a command
list. -/
def configCmds (l : List Cmd) : List (Nat × Nat × List Nat) :=
  l.filterMap (fun c =>
    match c with
    | Cmd.configureWindow w m vs => some (w, m, vs)
    | _ => none)

/-- Projection extracting the attribute mask of a ChangeWindowAttributes
request, if the command is one. -/
def attrMaskOf : Cmd → Option Nat
  | Cmd.changeWindowAttributes _ m _ => some m
  | _ => none

/-- Abstraction of the compiled xkb keymap consulted by `grab_keymap`:
the valid keycode range and, for each keycode, the list of keysyms that
`xkb_keymap_key_get_syms_by_level(keymap, code, 0, 0, &syms)` reports for
layout 0, shift level 0. -/
structure XkbKeymap where
  minKeycode : Nat
  maxKeycode : Nat
  syms : Nat → List Nat

/-- Embedding of the keycode search loop of `grab_keymap`
(main.c lines 344-359): every keycode from `min` to `max` inclusive is
visited; on each code whose level-0 keysym list contains the wanted keysym
the loop overwrites `xkb_keycode`, so with no break the last matching code
wins; `none` when no code matches (`found` stays false). -/
def scan_keycode (km : XkbKeymap) (keysym : Nat) : Option Nat :=
  (List.range' km.minKeycode (km.maxKeycode + 1 - km.minKeycode)).foldl
    (fun acc i => if keysym ∈ km.syms i then some i else acc) none

/-- Modelled from the spec (section 4.2 wording, for comparison with the
code): the startup translation as the spec states it selects the first
keycode, by ascending code order, whose primary (first) symbol equals the
registered key. -/
def scan_keycode_spec (km : XkbKeymap) (keysym : Nat) : Option Nat :=
  (List.range' km.minKeycode (km.maxKeycode + 1 - km.minKeycode)).find?
    (fun i => (km.syms i).head? == some keysym)

/-- Outcome of `grab_keymap` (main.c lines 326-378) for one registered
binding: fatal (`log_msg(LOG_LEVEL_ERROR, ...)` aborts the process) when no
keycode resolves, otherwise a passive grab of the modifiers with the resolved
keycode on the root window. -/
inductive GrabResult where
  | fatal
  | grab (modifiers keycode : Nat)
deriving DecidableEq, Repr

/-- Embedding of `grab_keymap` (main.c lines 326-378): resolve the keysym via
the scan loop; failure is fatal, success issues the grab. -/
def grab_keymap (km : XkbKeymap) (modifiers keysym : Nat) : GrabResult :=
  match scan_keycode km keysym with
  | none => GrabResult.fatal
  | some kc => GrabResult.grab modifiers kc

/-- One workspace operation, for reasoning about operation sequences:
`ins` is the insertion performed by `handle_create_notify`, `del` the removal
performed by `handle_destroy_notify`. -/
inductive Op where
  | ins (w : Window)
  | del (w : Window)
deriving DecidableEq, Repr

/-- Apply one operation to the workspace. -/
def applyOp (ws : Workspace) : Op → Workspace
  | Op.ins w => insertWindow ws w
  | Op.del w => removeWindow ws w

/-- Run a sequence of operations from the initial empty workspace
(`workspace = { {0}, NULL, 0 }`, main.c line 147). -/
def runOps (ops : List Op) : Workspace :=
  ops.foldl applyOp { main_window := 0, side_windows := [] }

/-- Number of windows the workspace holds: the main slot (0 encodes absence)
plus the side array. -/
def windowCount (ws : Workspace) : Nat :=
  (if ws.main_window = 0 then 0 else 1) + ws.side_windows.length

/-- True when the operation inserts a nonzero window id (deletions are
unconstrained). -/
def insNonzero : Op → Bool
  | Op.ins w => w != 0
  | Op.del _ => true

/-- Packing of one value per set mask bit, walking a bit list in order: the
common shape of the `value_list` built by `handle_configure_request`. -/
def packFields : List Nat → Nat → (Nat → Nat) → List Nat
  | [], _, _ => []
  | b :: bs, mask, f =>
      (if mask &&& b ≠ 0 then [f b] else []) ++ packFields bs mask f

/-- Invariant maintained by the workspace operations when all inserted ids
are nonzero: an empty main slot forces an empty side array, and the side
array never stores the reserved id 0. -/
def WsInv (ws : Workspace) : Prop :=
  (ws.main_window = 0 → ws.side_windows = []) ∧
  ∀ x ∈ ws.side_windows, x ≠ 0

/-- Generic result candidate of the `grab_keymap` search loop on an arbitrary
code list: the last element satisfying the predicate, if any (a match later
in the list overwrites an earlier one, like the C loop's `xkb_keycode`). -/
def lastMatch (p : Nat → Prop) [DecidablePred p] : List Nat → Option Nat
  | [] => none
  | x :: l =>
      match lastMatch p l with
      | some v => some v
      | none => if p x then some x else none

/- ========================= Helper lemmas ========================= -/

theorem findLastIdx_eq_none (l : List Window) (w : Window) :
    findLastIdx l w = none ↔ w ∉ l := by
  induction l with
  | nil => simp [findLastIdx]
  | cons x rest ih =>
      by_cases hw : w ∈ rest
      · obtain ⟨i, hi⟩ : ∃ i, findLastIdx rest w = some i := by
          cases hf : findLastIdx rest w with
          | none => exact absurd (ih.mp hf) (by simpa using hw)
          | some i => exact ⟨i, rfl⟩
        simp [findLastIdx, hi, hw]
      · have hr : findLastIdx rest w = none := ih.mpr hw
        by_cases hx : x = w
        · subst hx
          simp [findLastIdx, hr]
        · have hnotin : w ∉ x :: rest := by
            rw [List.mem_cons]
            rintro (h | h)
            · exact hx h.symm
            · exact hw h
          simp [findLastIdx, hr, hx, hnotin]

theorem findLastIdx_decomp (l : List Window) (w : Window) (i : Nat)
    (h : findLastIdx l w = some i) :
    ∃ l1 l2, l = l1 ++ w :: l2 ∧ l1.length = i ∧ l.eraseIdx i = l1 ++ l2 := by
  induction l generalizing i with
  | nil => simp [findLastIdx] at h
  | cons x rest ih =>
      simp only [findLastIdx] at h
      cases hr : findLastIdx rest w with
      | some j =>
          rw [hr] at h
          obtain rfl : j + 1 = i := by simpa using h
          obtain ⟨l1, l2, hdec, hlen, herase⟩ := ih j hr
          refine ⟨x :: l1, l2, by simp [hdec], by simp [hlen], ?_⟩
          rw [List.eraseIdx_cons_succ, herase]
          simp
      | none =>
          rw [hr] at h
          by_cases hx : x = w
          · rw [if_pos hx] at h
            obtain rfl : 0 = i := by simpa using h
            exact ⟨[], rest, by simp [hx], rfl, by simp⟩
          · simp [hx] at h

theorem findLastIdx_of_mem (l : List Window) (w : Window) (h : w ∈ l) :
    ∃ i l1 l2, findLastIdx l w = some i ∧ l = l1 ++ w :: l2 ∧
      l1.length = i ∧ l.eraseIdx i = l1 ++ l2 := by
  cases hf : findLastIdx l w with
  | none => exact absurd h ((findLastIdx_eq_none l w).mp hf)
  | some i =>
      obtain ⟨l1, l2, hdec, hlen, herase⟩ := findLastIdx_decomp l w i hf
      exact ⟨i, l1, l2, rfl, hdec, hlen, herase⟩

theorem enum_map_getD (l : List Window) (f : Nat × Window → Cmd) :
    l.enum.map f = (List.range l.length).map (fun i => f (i, l.getD i 0)) := by
  apply List.ext_getElem
  · simp
  · intro i h1 h2
    have hl : i < l.length := by simpa using h1
    simp [List.getElem?_eq_getElem hl]

/- ========================= C10 ========================= -/

/-- C10: the workspace encodes the absence of a main window as window id 0,
so a WindowCreated notification carrying window id 0 delivered to an empty
workspace leaves the workspace empty: main still reads as absent (0) and the
window is never tracked. -/
theorem create_zero_window_id (W H : Nat) :
    (handle_create_notify W H ⟨0, []⟩ 0).1 = ⟨0, []⟩ ∧
    insertWindow ⟨0, []⟩ 0 = ⟨0, []⟩ :=
  ⟨rfl, rfl⟩

/- ========================= C2 ========================= -/

/-- C2: `relayout` issues no geometry command when main is empty; exactly
`(0, 0, W, H)` for main when side is empty; and otherwise `(0, 0, W/2, H)`
for main and, for side of length N, `(W/2, i*(H/N), W/2, H/N)` for side
entry i, with integer-division truncation; in particular W=1920, H=1080 with
main plus 2 side windows yields main (0,0,960,1080), side[0] (960,0,960,540),
side[1] (960,540,960,540). -/
theorem reconfigure_cases (W H : Nat) (ws : Workspace) :
    (ws.main_window = 0 → reconfigure W H ws = [Cmd.flush]) ∧
    (ws.main_window ≠ 0 → ws.side_windows = [] →
       reconfigure W H ws =
         [Cmd.changeWindowRect ws.main_window 0 0 W H, Cmd.flush]) ∧
    (ws.main_window ≠ 0 → ws.side_windows ≠ [] →
       reconfigure W H ws =
         Cmd.changeWindowRect ws.main_window 0 0 (W / 2) H ::
           (List.range ws.side_windows.length).map (fun i =>
             Cmd.changeWindowRect (ws.side_windows.getD i 0) (W / 2)
               (i * (H / ws.side_windows.length)) (W / 2)
               (H / ws.side_windows.length))
           ++ [Cmd.flush]) ∧
    reconfigure 1920 1080 ⟨1, [2, 3]⟩ =
      [Cmd.changeWindowRect 1 0 0 960 1080,
       Cmd.changeWindowRect 2 960 0 960 540,
       Cmd.changeWindowRect 3 960 540 960 540, Cmd.flush] := by
  refine ⟨?_, ?_, ?_, by decide⟩
  · intro h0
    simp [reconfigure, h0]
  · intro h0 hside
    simp [reconfigure, h0, hside]
  · intro h0 hside
    have hlen : ¬ ws.side_windows.length = 0 := by
      simpa [List.length_eq_zero] using hside
    rw [reconfigure, if_pos (by simpa using h0), if_neg hlen,
      enum_map_getD, List.cons_append]

/-- Witness for `reconfigure_cases` at the spec's own concrete layout
example. -/
theorem reconfigure_cases_witness :
    (Workspace.mk 1 [2, 3]).main_window ≠ 0 ∧
    (Workspace.mk 1 [2, 3]).side_windows ≠ [] ∧
    reconfigure 1920 1080 ⟨1, [2, 3]⟩ =
      Cmd.changeWindowRect 1 0 0 (1920 / 2) 1080 ::
        (List.range (List.length [2, 3])).map (fun i =>
          Cmd.changeWindowRect (List.getD [2, 3] i 0) (1920 / 2)
            (i * (1080 / List.length [2, 3])) (1920 / 2)
            (1080 / List.length [2, 3]))
        ++ [Cmd.flush] :=
  ⟨by decide, by decide,
    (reconfigure_cases 1920 1080 ⟨1, [2, 3]⟩).2.2.1 (by decide) (by decide)⟩

/- ========================= C3 ========================= -/

/-- C3: `remove(w)` behaves in exactly three cases: if w is main and side is
non-empty then side[0] becomes main and the resulting side equals the
previous side with index 0 removed, order preserved; if w is main and side is
empty then main becomes empty; if w is found in side then it is removed from
side with the relative order of the remainder preserved. -/
theorem remove_cases (ws : Workspace) (w : Window) :
    (ws.main_window = w → ws.side_windows ≠ [] →
       (removeWindow ws w).main_window = ws.side_windows.headD 0 ∧
       (removeWindow ws w).side_windows = ws.side_windows.tail) ∧
    (ws.main_window = w → ws.side_windows = [] →
       removeWindow ws w = ⟨0, []⟩) ∧
    (ws.main_window ≠ w → w ∈ ws.side_windows →
       (removeWindow ws w).main_window = ws.main_window ∧
       ∃ l1 l2, ws.side_windows = l1 ++ w :: l2 ∧
         (removeWindow ws w).side_windows = l1 ++ l2) := by
  refine ⟨?_, ?_, ?_⟩
  · intro hm hs
    rw [removeWindow, if_pos hm]
    cases hside : ws.side_windows with
    | nil => exact absurd hside hs
    | cons s0 rest => simp [hside]
  · intro hm hs
    rw [removeWindow, if_pos hm, hs]
  · intro hm hs
    obtain ⟨i, l1, l2, hfind, hdec, hlen, herase⟩ := findLastIdx_of_mem _ _ hs
    rw [removeWindow, if_neg hm, hfind]
    exact ⟨rfl, l1, l2, hdec, herase⟩

/-- Witness for `remove_cases`: destroying main 5 with side [6, 7] promotes
6 and leaves [7]. -/
theorem remove_cases_witness :
    (removeWindow ⟨5, [6, 7]⟩ 5).main_window = 6 ∧
    (removeWindow ⟨5, [6, 7]⟩ 5).side_windows = [7] :=
  (remove_cases ⟨5, [6, 7]⟩ 5).1 rfl (by decide)

/- ========================= C4 ========================= -/

/-- C4 counterexample: destroying a window matching neither main nor side
leaves the state unchanged but still issues a geometry command for main and a
flush (the claim says no geometry command and no flush are issued). -/
theorem destroy_unmatched_counterexample :
    (handle_destroy_notify 1920 1080 ⟨1, []⟩ 2).1 = ⟨1, []⟩ ∧
    (handle_destroy_notify 1920 1080 ⟨1, []⟩ 2).2 =
      [Cmd.changeWindowRect 1 0 0 1920 1080, Cmd.flush] := by
  decide

/-- C4 as amended: for a window matching neither main nor any side entry the
workspace state is unchanged, but the handler nevertheless performs a full
relayout: it emits the geometry commands of the current state and a flush
(`reconfigure` runs unconditionally after every destroy notification). -/
theorem destroy_unmatched_still_relayouts (W H : Nat) (ws : Workspace)
    (w : Window) (hm : ws.main_window ≠ w) (hs : w ∉ ws.side_windows) :
    (handle_destroy_notify W H ws w).1 = ws ∧
    (handle_destroy_notify W H ws w).2 = reconfigure W H ws ∧
    Cmd.flush ∈ (handle_destroy_notify W H ws w).2 := by
  have hrm : removeWindow ws w = ws := by
    rw [removeWindow, if_neg hm, (findLastIdx_eq_none _ _).mpr hs]
  refine ⟨?_, ?_, ?_⟩
  · show removeWindow ws w = ws
    exact hrm
  · show reconfigure W H (removeWindow ws w) = reconfigure W H ws
    rw [hrm]
  · show Cmd.flush ∈ reconfigure W H (removeWindow ws w)
    rw [hrm, reconfigure]
    simp

/-- Witness for `destroy_unmatched_still_relayouts`: window 2 matches nothing
in workspace (3, [4]), yet the relayout commands are issued. -/
theorem destroy_unmatched_witness :
    (Workspace.mk 3 [4]).main_window ≠ 2 ∧
    2 ∉ (Workspace.mk 3 [4]).side_windows ∧
    ((handle_destroy_notify 800 600 ⟨3, [4]⟩ 2).1 = ⟨3, [4]⟩ ∧
     (handle_destroy_notify 800 600 ⟨3, [4]⟩ 2).2 =
       reconfigure 800 600 ⟨3, [4]⟩ ∧
     Cmd.flush ∈ (handle_destroy_notify 800 600 ⟨3, [4]⟩ 2).2) :=
  ⟨by decide, by decide,
    destroy_unmatched_still_relayouts 800 600 ⟨3, [4]⟩ 2 (by decide)
      (by decide)⟩

/- ========================= C6 ========================= -/

/-- C6 (code bug): on WindowCreated the handler does insert the window and
issue commands, but the "border colour" write is an
`xcb_change_window_attributes` whose attribute mask is `XCB_CW_EVENT_MASK`
(2048) carrying the colour value — the window's event mask is clobbered with
0xffffff and no `XCB_CW_BORDER_PIXEL` (8) change ever reaches the display
port; only the border width (5) is actually configured. -/
theorem create_border_colour_bug :
    (handle_create_notify 1920 1080 ⟨0, []⟩ 1).2 =
      [Cmd.changeWindowRect 1 0 0 1920 1080, Cmd.flush,
       Cmd.changeWindowAttributes 1 XCB_CW_EVENT_MASK 0xffffff,
       Cmd.configureWindow 1 XCB_CONFIG_WINDOW_BORDER_WIDTH [BORDER_WIDTH]] ∧
    (handle_create_notify 1920 1080 ⟨0, []⟩ 1).1 = ⟨1, []⟩ ∧
    ∀ c ∈ (handle_create_notify 1920 1080 ⟨0, []⟩ 1).2,
      attrMaskOf c ≠ some XCB_CW_BORDER_PIXEL := by
  decide

/- ========================= C9 ========================= -/

theorem decode_packFields (bs : List Nat) (mask : Nat) (f : Nat → Nat) :
    decodeConfigValues bs mask (packFields bs mask f) =
      bs.filterMap (fun b =>
        if mask &&& b ≠ 0 then some (b, f b) else none) := by
  induction bs with
  | nil => rfl
  | cons b bs ih =>
      by_cases h : mask &&& b ≠ 0
      · simp [decodeConfigValues, packFields, h, ih]
      · simp [decodeConfigValues, packFields, h, ih]

theorem configure_value_list_eq_pack (ev : ConfigureRequestEvent) :
    configure_value_list ev =
      packFields configBits ev.value_mask (requestedValue ev) := by
  simp [configure_value_list, packFields, configBits, requestedValue,
    XCB_CONFIG_WINDOW_X, XCB_CONFIG_WINDOW_Y, XCB_CONFIG_WINDOW_WIDTH,
    XCB_CONFIG_WINDOW_HEIGHT, XCB_CONFIG_WINDOW_BORDER_WIDTH,
    XCB_CONFIG_WINDOW_SIBLING, XCB_CONFIG_WINDOW_STACK_MODE]

/-- C9: for every ConfigureRequest the handler issues exactly one configure
command, for the requesting window, whose value mask is the client's mask
verbatim and whose value list decodes (one value per set bit, in the
protocol's ascending bit order) to exactly the requested fields with the
requested values — no field added, dropped, or altered, regardless of
workspace state. -/
theorem configure_request_verbatim (ev : ConfigureRequestEvent) :
    configCmds (handle_configure_request ev) =
      [(ev.window, ev.value_mask, configure_value_list ev)] ∧
    decodeConfigValues configBits ev.value_mask (configure_value_list ev) =
      requestedFields ev := by
  constructor
  · rfl
  · rw [configure_value_list_eq_pack, decode_packFields]
    rfl

/- ========================= C1 ========================= -/

/-- C1 counterexample: with two registrations of the same (modifierMask, key)
pair the key-press loop (which has no break) triggers BOTH entries in
registration order, not exactly the first match as the claim states. -/
theorem resolve_counterexample :
    handle_key_press
        [{ modifiers := 9, keysym := 99, action := Action.quit },
         { modifiers := 9, keysym := 99, action := Action.spawnprocess }] 9 99
      = [{ modifiers := 9, keysym := 99, action := Action.quit },
         { modifiers := 9, keysym := 99, action := Action.spawnprocess }] ∧
    (List.find?
        (fun (e : KeymapEntry) => e.modifiers == 9 && e.keysym == 99)
        [{ modifiers := 9, keysym := 99, action := Action.quit },
         { modifiers := 9, keysym := 99, action := Action.spawnprocess }]).toList
      = [{ modifiers := 9, keysym := 99, action := Action.quit }] := by
  decide

/-- C1 as amended: resolve matches an entry iff the observed modifier mask
equals the registered mask bit-for-bit and the observed key equals the
registered key, and triggers every matching entry in registration order; when
the registry has no duplicate (modifierMask, key) pairs — as the program's
table does — this is exactly the first match in registration order, or none. -/
theorem resolve_first_match (r : List KeymapEntry) (st ks : Nat)
    (hnd : (r.map (fun e => (e.modifiers, e.keysym))).Nodup) :
    handle_key_press r st ks =
      (r.find? (fun e => e.modifiers == st && e.keysym == ks)).toList := by
  simp only [handle_key_press]
  induction r with
  | nil => rfl
  | cons e rest ih =>
      rw [List.map_cons, List.nodup_cons] at hnd
      by_cases h : (e.modifiers == st && e.keysym == ks) = true
      · have he : e.modifiers = st ∧ e.keysym = ks := by simpa using h
        have hrest :
            rest.filter (fun e => e.modifiers == st && e.keysym == ks)
              = [] := by
          rw [List.filter_eq_nil_iff]
          intro a ha hp
          have ha2 : a.modifiers = st ∧ a.keysym = ks := by simpa using hp
          exact hnd.1 (List.mem_map.mpr
            ⟨a, ha, by rw [ha2.1, ha2.2, he.1, he.2]⟩)
        simp [List.filter_cons, List.find?_cons, h, hrest]
      · have hfalse : (e.modifiers == st && e.keysym == ks) = false := by
          simpa using h
        simp only [List.filter_cons, List.find?_cons, hfalse,
          Bool.false_eq_true, if_false]
        exact ih hnd.2

/-- Witness for `resolve_first_match` on the program's own key table, which
has no duplicate pairs: Alt+Shift+c resolves to exactly the quit entry. -/
theorem resolve_first_match_witness :
    (KEYMAPS.map (fun e => (e.modifiers, e.keysym))).Nodup ∧
    handle_key_press KEYMAPS 9 99 =
      (KEYMAPS.find? (fun e => e.modifiers == 9 && e.keysym == 99)).toList :=
  ⟨by decide, resolve_first_match KEYMAPS 9 99 (by decide)⟩

/- ========================= C7 ========================= -/

theorem wsInv_applyOp (ws : Workspace) (op : Op) (hws : WsInv ws)
    (hop : insNonzero op = true) : WsInv (applyOp ws op) := by
  cases op with
  | ins w =>
      have hw : w ≠ 0 := by simpa [insNonzero] using hop
      show WsInv (insertWindow ws w)
      by_cases hm : ws.main_window = 0
      · have hside := hws.1 hm
        rw [insertWindow, if_pos hm]
        exact ⟨fun _ => hside, hws.2⟩
      · rw [insertWindow, if_neg hm]
        refine ⟨fun h => absurd h hm, ?_⟩
        intro x hx
        rw [List.mem_append] at hx
        rcases hx with hx | hx
        · exact hws.2 x hx
        · rw [List.mem_singleton] at hx
          subst hx
          exact hw
  | del w =>
      show WsInv (removeWindow ws w)
      rw [removeWindow]
      by_cases hm : ws.main_window = w
      · rw [if_pos hm]
        cases hside : ws.side_windows with
        | nil => exact ⟨fun _ => rfl, by simp⟩
        | cons s0 rest =>
            have hs0 : s0 ≠ 0 := hws.2 s0 (by simp [hside])
            refine ⟨fun h => absurd h hs0, ?_⟩
            intro x hx
            refine hws.2 x ?_
            rw [hside]
            exact List.mem_cons_of_mem _ hx
      · rw [if_neg hm]
        cases hfind : findLastIdx ws.side_windows w with
        | none => exact hws
        | some i =>
            obtain ⟨l1, l2, hdec, hlen, herase⟩ :=
              findLastIdx_decomp _ _ i hfind
            show WsInv { ws with side_windows := ws.side_windows.eraseIdx i }
            refine ⟨?_, ?_⟩
            · intro h0
              have hnil := hws.1 h0
              rw [hnil] at hdec
              exact absurd hdec (by simp)
            · intro x hx
              show x ≠ 0
              rw [herase, List.mem_append] at hx
              refine hws.2 x ?_
              rw [hdec, List.mem_append]
              rcases hx with hx | hx
              · exact Or.inl hx
              · exact Or.inr (List.mem_cons_of_mem _ hx)

theorem wsInv_foldl (ops : List Op) (ws : Workspace) (hws : WsInv ws)
    (h : ∀ op ∈ ops, insNonzero op = true) :
    WsInv (ops.foldl applyOp ws) := by
  induction ops generalizing ws with
  | nil => exact hws
  | cons op ops ih =>
      exact ih _ (wsInv_applyOp ws op hws (h op (by simp)))
        (fun o ho => h o (by simp [ho]))

/-- C7 counterexample: the sequence insert 5, insert 0, insert 7, remove 5
(legal notifications, since window id 0 can appear in a WindowCreated event)
reaches a state whose main is empty while the workspace still holds one
window — the claimed invariant fails once id 0 is inserted into a non-empty
workspace. -/
theorem main_empty_counterexample :
    (runOps [Op.ins 5, Op.ins 0, Op.ins 7, Op.del 5]).main_window = 0 ∧
    windowCount (runOps [Op.ins 5, Op.ins 0, Op.ins 7, Op.del 5]) = 1 := by
  decide

/-- C7 as amended: for every sequence of insert and remove operations
starting from the empty workspace in which every inserted window id is
nonzero, main is empty iff the workspace holds zero windows overall. -/
theorem main_empty_iff_zero_windows (ops : List Op)
    (h : ∀ op ∈ ops, insNonzero op = true) :
    ((runOps ops).main_window = 0 ↔ windowCount (runOps ops) = 0) := by
  have hinv : WsInv (runOps ops) :=
    wsInv_foldl ops _ ⟨fun _ => rfl, by simp⟩ h
  constructor
  · intro h0
    have hside := hinv.1 h0
    simp [windowCount, h0, hside]
  · intro hc
    by_contra h0
    rw [windowCount, if_neg h0] at hc
    omega

/-- Witness for `main_empty_iff_zero_windows` on a nonzero-id sequence. -/
theorem main_empty_iff_zero_windows_witness :
    (∀ op ∈ [Op.ins 5, Op.ins 7, Op.del 5], insNonzero op = true) ∧
    ((runOps [Op.ins 5, Op.ins 7, Op.del 5]).main_window = 0 ↔
      windowCount (runOps [Op.ins 5, Op.ins 7, Op.del 5]) = 0) :=
  ⟨by decide, main_empty_iff_zero_windows _ (by decide)⟩

/- ========================= C5 ========================= -/

theorem foldl_if_eq_lastMatch (p : Nat → Prop) [DecidablePred p]
    (l : List Nat) (acc : Option Nat) :
    l.foldl (fun a i => if p i then some i else a) acc =
      (lastMatch p l).elim acc some := by
  induction l generalizing acc with
  | nil => rfl
  | cons x l ih =>
      rw [List.foldl_cons, ih]
      cases hl : lastMatch p l with
      | some v => simp [lastMatch, hl]
      | none =>
          by_cases hx : p x
          · simp [lastMatch, hl, hx]
          · simp [lastMatch, hl, hx]

theorem scan_keycode_eq_lastMatch (km : XkbKeymap) (keysym : Nat) :
    scan_keycode km keysym =
      lastMatch (fun i => keysym ∈ km.syms i)
        (List.range' km.minKeycode (km.maxKeycode + 1 - km.minKeycode)) := by
  calc scan_keycode km keysym
      = (lastMatch (fun i => keysym ∈ km.syms i)
          (List.range' km.minKeycode
            (km.maxKeycode + 1 - km.minKeycode))).elim none some :=
        foldl_if_eq_lastMatch (fun i => keysym ∈ km.syms i) _ none
    _ = lastMatch (fun i => keysym ∈ km.syms i)
          (List.range' km.minKeycode (km.maxKeycode + 1 - km.minKeycode)) := by
        cases lastMatch (fun i => keysym ∈ km.syms i)
          (List.range' km.minKeycode (km.maxKeycode + 1 - km.minKeycode)) <;>
          rfl

theorem range'_succ_concat (a n : Nat) :
    List.range' a (n + 1) = List.range' a n ++ [a + n] := by
  rw [List.range'_concat]
  simp

theorem lastMatch_append (p : Nat → Prop) [DecidablePred p] (l : List Nat)
    (x : Nat) :
    lastMatch p (l ++ [x]) = if p x then some x else lastMatch p l := by
  induction l with
  | nil => rfl
  | cons y l ih =>
      rw [List.cons_append]
      show (match lastMatch p (l ++ [x]) with
            | some v => some v
            | none => if p y then some y else none) = _
      rw [ih]
      by_cases hx : p x
      · simp [hx]
      · simp only [if_neg hx]
        rfl

theorem lastMatch_range'_some (p : Nat → Prop) [DecidablePred p]
    (a n i : Nat) (h : lastMatch p (List.range' a n) = some i) :
    a ≤ i ∧ i < a + n ∧ p i ∧ ∀ j, i < j → j < a + n → ¬ p j := by
  induction n generalizing i with
  | zero => exact absurd h (by simp [lastMatch])
  | succ n ih =>
      rw [range'_succ_concat, lastMatch_append] at h
      by_cases hx : p (a + n)
      · rw [if_pos hx] at h
        obtain rfl : a + n = i := by simpa using h
        refine ⟨by omega, by omega, hx, ?_⟩
        intro j h1 h2
        exact absurd h2 (by omega)
      · rw [if_neg hx] at h
        obtain ⟨h1, h2, h3, h4⟩ := ih i h
        refine ⟨h1, by omega, h3, ?_⟩
        intro j hj1 hj2
        by_cases hj : j = a + n
        · subst hj
          exact hx
        · exact h4 j hj1 (by omega)

theorem lastMatch_range'_none (p : Nat → Prop) [DecidablePred p] (a n : Nat) :
    lastMatch p (List.range' a n) = none ↔
      ∀ i, a ≤ i → i < a + n → ¬ p i := by
  induction n with
  | zero =>
      simp only [List.range'_zero, lastMatch]
      constructor
      · intro _ i hi1 hi2
        exact absurd hi1 (by omega)
      · intro _
        trivial
  | succ n ih =>
      rw [range'_succ_concat, lastMatch_append]
      by_cases hx : p (a + n)
      · rw [if_pos hx]
        constructor
        · intro h
          exact Option.noConfusion h
        · intro h
          exact absurd hx (h (a + n) (by omega) (by omega))
      · rw [if_neg hx, ih]
        constructor
        · intro h i hi1 hi2
          by_cases hi : i = a + n
          · subst hi
            exact hx
          · exact h i hi1 (by omega)
        · intro h i hi1 hi2
          exact h i hi1 (by omega)

/-- C5 counterexample: in a layout where keycodes 8 and 10 both have the
registered key as their primary level-0 symbol, the startup scan resolves to
keycode 10 (last match — the loop has no break), while the claimed rule
(first match by ascending code whose primary symbol equals the key) selects
keycode 8. -/
theorem scan_keycode_counterexample :
    scan_keycode
        ⟨8, 10, fun i => if i = 8 then [99] else if i = 10 then [99] else []⟩
        99 = some 10 ∧
    scan_keycode_spec
        ⟨8, 10, fun i => if i = 8 then [99] else if i = 10 then [99] else []⟩
        99 = some 8 := by
  constructor
  · rfl
  · rfl

/-- C5 as amended: the startup translation scans every physical key code in
the active layout's valid range [min, max] and selects the last code, by
ascending code order, any of whose level-0 symbols equals the registered key
(so a selected code carries the key and no strictly larger in-range code
does); if no code in the range matches, the result is fatal (the process
terminates). -/
theorem grab_scan_last_match (km : XkbKeymap) (modifiers keysym : Nat)
    (hrange : km.minKeycode ≤ km.maxKeycode) :
    (∀ i, scan_keycode km keysym = some i →
       km.minKeycode ≤ i ∧ i ≤ km.maxKeycode ∧ keysym ∈ km.syms i ∧
       ∀ j, i < j → j ≤ km.maxKeycode → keysym ∉ km.syms j) ∧
    (scan_keycode km keysym = none ↔
       ∀ i, km.minKeycode ≤ i → i ≤ km.maxKeycode → keysym ∉ km.syms i) ∧
    (grab_keymap km modifiers keysym = GrabResult.fatal ↔
       scan_keycode km keysym = none) := by
  have hcnt : km.minKeycode + (km.maxKeycode + 1 - km.minKeycode) =
      km.maxKeycode + 1 := by omega
  refine ⟨?_, ?_, ?_⟩
  · intro i hi
    rw [scan_keycode_eq_lastMatch] at hi
    obtain ⟨h1, h2, h3, h4⟩ :=
      lastMatch_range'_some (fun i => keysym ∈ km.syms i) _ _ i hi
    refine ⟨h1, by omega, h3, ?_⟩
    intro j hj1 hj2
    exact h4 j hj1 (by omega)
  · rw [scan_keycode_eq_lastMatch,
      lastMatch_range'_none (fun i => keysym ∈ km.syms i)]
    constructor
    · intro h i hi1 hi2
      exact h i hi1 (by omega)
    · intro h i hi1 hi2
      exact h i hi1 (by omega)
  · unfold grab_keymap
    cases hscan : scan_keycode km keysym with
    | none => simp
    | some kc => simp

/-- Witness for `grab_scan_last_match` on a small concrete layout: the only
matching code 9 is selected, and an unknown keysym is fatal. -/
theorem grab_scan_last_match_witness :
    (8 : Nat) ≤ 10 ∧
    (∀ i, scan_keycode ⟨8, 10, fun i => if i = 9 then [99] else []⟩ 99
        = some i →
      8 ≤ i ∧ i ≤ 10 ∧
      (99 ∈ (if i = 9 then [99] else ([] : List Nat))) ∧
      ∀ j, i < j → j ≤ 10 →
        99 ∉ (if j = 9 then [99] else ([] : List Nat))) ∧
    (scan_keycode ⟨8, 10, fun i => if i = 9 then [99] else []⟩ 99 = none ↔
      ∀ i, 8 ≤ i → i ≤ 10 →
        99 ∉ (if i = 9 then [99] else ([] : List Nat))) ∧
    (grab_keymap ⟨8, 10, fun i => if i = 9 then [99] else []⟩ 9 99
        = GrabResult.fatal ↔
      scan_keycode ⟨8, 10, fun i => if i = 9 then [99] else []⟩ 99 = none) :=
  ⟨by decide,
    grab_scan_last_match ⟨8, 10, fun i => if i = 9 then [99] else []⟩ 9 99
      (by decide)⟩

/- ========================= C8 ========================= -/

/-- C8: ShuttingDown is terminal for the engine's step relation — once
`running` is false no further notification is dispatched, even if one is
already queued — and dispatching the key press bound to quit (Alt+Shift+c)
puts the engine into that state. -/
theorem shutting_down_terminal (W H : Nat) (e : Engine) (q : List XEvent) :
    (e.running = false → ∀ s, ¬ EngineStep W H (e, q) s) ∧
    (dispatchEvent W H e
        (XEvent.keyPress (XCB_MOD_MASK_1 ||| XCB_MOD_MASK_SHIFT)
          XKB_KEY_c)).1.running = false := by
  constructor
  · intro hstop s hstep
    cases hstep with
    | dispatch e ev q hrun =>
        rw [hrun] at hstop
        exact Bool.noConfusion hstop
  · rfl

/-- Witness for `shutting_down_terminal`: after the quit key press is
dispatched the engine cannot take a step on a queued WindowCreated
notification. -/
theorem shutting_down_terminal_witness :
    ((dispatchEvent 1920 1080 ⟨true, ⟨0, []⟩⟩ (XEvent.keyPress 9 99)).1).running
      = false ∧
    ∀ s, ¬ EngineStep 1920 1080
      ((dispatchEvent 1920 1080 ⟨true, ⟨0, []⟩⟩ (XEvent.keyPress 9 99)).1,
        [XEvent.createNotify 3]) s :=
  ⟨(shutting_down_terminal 1920 1080 ⟨true, ⟨0, []⟩⟩ []).2,
    (shutting_down_terminal 1920 1080
        (dispatchEvent 1920 1080 ⟨true, ⟨0, []⟩⟩ (XEvent.keyPress 9 99)).1
        [XEvent.createNotify 3]).1
      (shutting_down_terminal 1920 1080 ⟨true, ⟨0, []⟩⟩ []).2⟩

end Pwm

